import Mathlib

/-!
Verification of `dbcomp.py`, the safe-browsing database comparison tool.

The embedding models the program over byte streams represented as `List Nat`
(one entry per byte). Python exceptions (struct.error, zlib.error, IndexError,
AssertionError, KeyError, ZeroDivisionError, and the explicit `exit(1)` calls)
are modelled as `Except DErr` error results; zlib decompression is an external
collaborator and is abstracted as a parameter `dec : List Nat → Option (List Nat)`
(`none` models a raised `zlib.error`).

Python object identity matters for `compare_table`: class `SBHash` defines no
`__eq__`/`__hash__`, so Python `set` operations on `SBHash` objects hash and
compare by object identity (`id()`), not by field values. We therefore model
the record collections consumed by the comparison engine as lists of
`(identity tag × record value)` pairs, with the `Nat` tag standing for the
object's identity; the parsers create a fresh object per appended record, so
all tags occurring in one program run are pairwise distinct.
-/

/-- Failure modes of the program: each constructor models one Python
exception site (or explicit `exit(1)`) reached by the code. -/
inductive DErr where
  /-- `struct.error` from `unpack_from` on a too-short buffer. -/
  | structError
  /-- `zlib.error` raised by `zlib.decompress`. -/
  | zlibError
  /-- the `print` + `exit(1)` in `read_bytesliced` reporting the four slice lengths. -/
  | sliceMismatch (l1 l2 l3 l4 : Nat)
  /-- `IndexError` from an out-of-range list index in `pset_to_prefixes`. -/
  | indexError
  /-- the `assert` in `fill_addprefixes`, whose message reports
  `len(prefixes)` and `len(self.addprefixes)` in that order. -/
  | assertPrefixCount (numGiven numPlaceholders : Nat)
  /-- the EOF check at the end of `read_sbstore`: checksum length read and
  number of bytes remaining after it. -/
  | badEof (md5len remaining : Nat)
  /-- `KeyError` from `new_lists[table]` in `compare_all_the_things`. -/
  | keyError (table : String)
  /-- `ZeroDivisionError` from the `Correct: %f%%` computation in `compare_table`. -/
  | zeroDivision
deriving DecidableEq

/-- The value held in `SBHash.prefix`: either a 4-byte partial hash stored as an
unsigned integer, or a 32-byte full hash stored as its byte tuple. -/
inductive PfxVal where
  | word (w : Nat)
  | full (bytes : List Nat)
deriving DecidableEq

instance : Inhabited PfxVal := ⟨PfxVal.word 0⟩

/-- Python class `SBHash` (constructor defaults are `None`, modelled as
`none`). The `prefix` attribute is called `pfx` here. -/
structure SBHash where
  pfx : Option PfxVal
  addchunk : Option Nat
  subchunk : Option Nat
deriving DecidableEq

instance : Inhabited SBHash := ⟨⟨none, none, none⟩⟩

/-- Python class `SBData` at the record-value level (as produced by
`read_sbstore`): `addchunks`/`subchunks` are Python `set`s of ints, the four
record sequences are Python lists of `SBHash`. -/
structure SBData where
  name : Option String
  addchunks : Finset Nat
  subchunks : Finset Nat
  addprefixes : List SBHash
  subprefixes : List SBHash
  addcompletes : List SBHash
  subcompletes : List SBHash
deriving DecidableEq

/-- `SBData` as seen by the comparison engine: every record carries its object
identity tag (first component), because `set` membership for `SBHash` objects
is decided by identity. -/
structure SBDataObj where
  name : Option String
  addchunks : Finset Nat
  subchunks : Finset Nat
  addprefixes : List (Nat × SBHash)
  subprefixes : List (Nat × SBHash)
  addcompletes : List (Nat × SBHash)
  subcompletes : List (Nat × SBHash)
deriving DecidableEq

/-! ### Stream primitives

`fp.read(n)` returns up to `n` bytes (fewer only at EOF); `struct.unpack_from`
raises `struct.error` when the buffer is shorter than the format requires. -/

/-- `fp.read(n)`: consume up to `n` bytes from the stream. -/
def fread (n : Nat) (s : List Nat) : List Nat × List Nat :=
  (s.take n, s.drop n)

/-- `readuint32`: read 4 bytes and unpack as a little-endian `uint32`
(struct format `"=I"`); `struct.error` if fewer than 4 bytes remain. -/
def readuint32 (s : List Nat) : Except DErr (Nat × List Nat) :=
  match s with
  | b0 :: b1 :: b2 :: b3 :: rest =>
      .ok (b0 + 256 * b1 + 65536 * b2 + 16777216 * b3, rest)
  | _ => .error .structError

/-- `readuint16`: read 2 bytes and unpack as a little-endian `uint16`. -/
def readuint16 (s : List Nat) : Except DErr (Nat × List Nat) :=
  match s with
  | b0 :: b1 :: rest => .ok (b0 + 256 * b1, rest)
  | _ => .error .structError

/-- `read_raw`: read `size` bytes and unpack as a byte tuple (struct format
`"=<size>B"`); `struct.error` when fewer than `size` bytes remain. -/
def read_raw (size : Nat) (s : List Nat) : Except DErr (List Nat × List Nat) :=
  if size ≤ s.length then .ok (s.take size, s.drop size) else .error .structError

/-- `read_unzip`: read `comp_size` bytes (short read possible at EOF) and feed
them to `zlib.decompress`, modelled by the abstract decompressor `dec`. -/
def read_unzip (dec : List Nat → Option (List Nat)) (comp_size : Nat) (s : List Nat) :
    Except DErr (List Nat × List Nat) :=
  match dec (s.take comp_size) with
  | some data => .ok (data, s.drop comp_size)
  | none => .error .zlibError

/-- `read_bytesliced`: three length-prefixed compressed slices, one raw slice
of `count` bytes, a consistency check on the four lengths (`exit(1)` printing
all four lengths on mismatch), then reassembly
`(slice1[i] << 24) | (slice2[i] << 16) | (slice3[i] << 8) | slice4[i]`
for `i in range(count)`. -/
def read_bytesliced (dec : List Nat → Option (List Nat)) (count : Nat) (s : List Nat) :
    Except DErr (List Nat × List Nat) := do
  let (comp_size, s) ← readuint32 s
  let (slice1, s) ← read_unzip dec comp_size s
  let (comp_size, s) ← readuint32 s
  let (slice2, s) ← read_unzip dec comp_size s
  let (comp_size, s) ← readuint32 s
  let (slice3, s) ← read_unzip dec comp_size s
  let (slice4, s) ← read_raw count s
  if slice1.length ≠ slice2.length ∨ slice2.length ≠ slice3.length ∨
      slice3.length ≠ slice4.length then
    .error (.sliceMismatch slice1.length slice2.length slice3.length slice4.length)
  else
    .ok ((List.range count).map (fun i =>
      ((slice1.getD i 0) <<< 24) ||| ((slice2.getD i 0) <<< 16) |||
      ((slice3.getD i 0) <<< 8) ||| slice4.getD i 0), s)

/-! ### Store file decoder (`read_sbstore`) -/

/-- The `for x in range(n): chunk = readuint32(fp)` loops, collected in order. -/
def read_u32_list (n : Nat) (s : List Nat) : Except DErr (List Nat × List Nat) :=
  match n with
  | 0 => .ok ([], s)
  | m + 1 => do
      let (x, s) ← readuint32 s
      let (xs, s) ← read_u32_list m s
      .ok (x :: xs, s)

/-- The `for x in range(deltasize): index_deltas.append(readuint16(fp))` loop. -/
def read_u16_list (n : Nat) (s : List Nat) : Except DErr (List Nat × List Nat) :=
  match n with
  | 0 => .ok ([], s)
  | m + 1 => do
      let (x, s) ← readuint16 s
      let (xs, s) ← read_u16_list m s
      .ok (x :: xs, s)

/-- The add-completions loop of `read_sbstore`: `num_add_complete` records of
(32 raw bytes, uint32 addchunk). -/
def read_addcompletes (n : Nat) (s : List Nat) :
    Except DErr (List (List Nat × Nat) × List Nat) :=
  match n with
  | 0 => .ok ([], s)
  | m + 1 => do
      let (complete, s) ← read_raw 32 s
      let (addchunk, s) ← readuint32 s
      let (rest, s) ← read_addcompletes m s
      .ok ((complete, addchunk) :: rest, s)

/-- The sub-completions loop of `read_sbstore`: `num_sub_complete` records of
(32 raw bytes, uint32 addchunk, uint32 subchunk). -/
def read_subcompletes (n : Nat) (s : List Nat) :
    Except DErr (List (List Nat × Nat × Nat) × List Nat) :=
  match n with
  | 0 => .ok ([], s)
  | m + 1 => do
      let (complete, s) ← read_raw 32 s
      let (addchunk, s) ← readuint32 s
      let (subchunk, s) ← readuint32 s
      let (rest, s) ← read_subcompletes m s
      .ok ((complete, addchunk, subchunk) :: rest, s)

/-- `read_sbstore`: decode a whole `.sbstore` file. Mirrors the source in file
order: 8-field header, add/sub chunk-id arrays (inserted into the chunk sets),
the four byte-sliced arrays, record construction (add-prefixes get placeholder
prefix `0`), completions, the 16-byte checksum, and the strict-EOF check
(`exit(1)` when the checksum is short or bytes remain). -/
def read_sbstore (dec : List Nat → Option (List Nat)) (s : List Nat) :
    Except DErr SBData := do
  let (_magic, s) ← readuint32 s
  let (_version, s) ← readuint32 s
  let (num_add_chunk, s) ← readuint32 s
  let (num_sub_chunk, s) ← readuint32 s
  let (num_add_pref, s) ← readuint32 s
  let (num_sub_pref, s) ← readuint32 s
  let (num_add_complete, s) ← readuint32 s
  let (num_sub_complete, s) ← readuint32 s
  let (addchunk_list, s) ← read_u32_list num_add_chunk s
  let (subchunk_list, s) ← read_u32_list num_sub_chunk s
  let (addprefix_addchunk, s) ← read_bytesliced dec num_add_pref s
  let (subprefix_subchunk, s) ← read_bytesliced dec num_sub_pref s
  let (subprefix_addchunk, s) ← read_bytesliced dec num_sub_pref s
  let (subprefix_vals, s) ← read_bytesliced dec num_sub_pref s
  let (addcomplete_list, s) ← read_addcompletes num_add_complete s
  let (subcomplete_list, s) ← read_subcompletes num_sub_complete s
  let (md5sum, s) := fread 16 s
  let (dummy, _) := fread 1 s
  if dummy.length ≠ 0 ∨ md5sum.length ≠ 16 then
    .error (.badEof md5sum.length s.length)
  else
    .ok { name := none
          addchunks := addchunk_list.foldl (fun t c => insert c t) ∅
          subchunks := subchunk_list.foldl (fun t c => insert c t) ∅
          addprefixes := (List.range num_add_pref).map (fun i =>
            { pfx := some (.word 0)
              addchunk := some (addprefix_addchunk.getD i 0)
              subchunk := none })
          subprefixes := (List.range num_sub_pref).map (fun i =>
            { pfx := some (.word (subprefix_vals.getD i 0))
              addchunk := some (subprefix_addchunk.getD i 0)
              subchunk := some (subprefix_subchunk.getD i 0) })
          addcompletes := addcomplete_list.map (fun r =>
            { pfx := some (.full r.1), addchunk := some r.2, subchunk := none })
          subcompletes := subcomplete_list.map (fun r =>
            { pfx := some (.full r.1)
              addchunk := some r.2.1
              subchunk := some r.2.2 }) }


/-! ### Prefix-set decoder (`read_pset`) -/

/-- Body of the inner loop of `pset_to_prefixes`, iterated once per element of
`range(start, end)` (which has `end - start` iterations), with `j` the current
index: `prefix += index_deltas[j]; prefixes.append(prefix)`. Returns the
appended values; `none` models the `IndexError` raised when `index_deltas[j]`
is out of range. -/
def run_deltas_from (index_deltas : List Nat) (p j : Nat) : Nat → Option (List Nat)
  | 0 => some []
  | n + 1 =>
    match index_deltas[j]? with
    | some d =>
        (run_deltas_from index_deltas (p + d) (j + 1) n).map (fun t => (p + d) :: t)
    | none => none

/-- Inner loop of `pset_to_prefixes`: `for j in range(start, end)`. -/
def run_deltas (index_deltas : List Nat) (p j e : Nat) : Option (List Nat) :=
  run_deltas_from index_deltas p j (e - j)

/-- Body of the outer loop of `pset_to_prefixes`, iterated once per element of
`range(prefix_len)` (which has `prefix_len` iterations), with `i` the current
index. `end` is `index_starts[i+1]` for a non-last index and
`len(index_deltas)` for the last one; list indexing raises `IndexError`
(modelled `none`) when out of range. -/
def pset_loop_from (index_prefixes index_starts index_deltas : List Nat) (i : Nat) :
    Nat → Option (List Nat)
  | 0 => some []
  | n + 1 => do
    let p ← index_prefixes[i]?
    let st ← index_starts[i]?
    let e ← if i ≠ index_prefixes.length - 1 then index_starts[i + 1]?
            else some index_deltas.length
    let emitted ← run_deltas index_deltas p st e
    let rest ← pset_loop_from index_prefixes index_starts index_deltas (i + 1) n
    some (p :: (emitted ++ rest))

/-- `pset_to_prefixes(index_prefixes, index_starts, index_deltas)`: the outer
loop `for i in range(prefix_len)`. -/
def pset_to_prefixes (index_prefixes index_starts index_deltas : List Nat) :
    Option (List Nat) :=
  pset_loop_from index_prefixes index_starts index_deltas 0 index_prefixes.length

/-- `read_pset`: header of three uint32 (version, indexsize, deltasize), then
`indexsize` uint32 index prefixes, `indexsize` uint32 index starts, `deltasize`
uint16 deltas, reconstruction, and the empty-set special case
`if len(prefixes) and prefixes[0] == 0: prefixes = []`. -/
def read_pset (s : List Nat) : Except DErr (List Nat) := do
  let (_version, s) ← readuint32 s
  let (indexsize, s) ← readuint32 s
  let (deltasize, s) ← readuint32 s
  let (index_prefixes, s) ← read_u32_list indexsize s
  let (index_starts, s) ← read_u32_list indexsize s
  let (index_deltas, _) ← read_u16_list deltasize s
  match pset_to_prefixes index_prefixes index_starts index_deltas with
  | none => .error .indexError
  | some ps => .ok (if ps ≠ [] ∧ ps.headD 0 = 0 then [] else ps)

/-! ### Assembler (`SBData.fill_addprefixes`) -/

/-- `SBData.fill_addprefixes`: assert equal lengths (the `AssertionError`
message reports `len(prefixes)` then `len(self.addprefixes)`), then assign
`self.addprefixes[i].prefix = prefixes[i]` for each index. -/
def fill_addprefixes (data : SBData) (given : List Nat) : Except DErr SBData :=
  if given.length = data.addprefixes.length then
    .ok { data with
          addprefixes := List.zipWith
            (fun pref p => { pref with pfx := some (.word p) })
            data.addprefixes given }
  else
    .error (.assertPrefixCount given.length data.addprefixes.length)

/-! ### Reconciliation engine (`compare_table`, `compare_all_the_things`)

Building a Python `set` from `SBHash` objects collects their identities:
`idSet` folds the identity tags into a `Finset Nat` exactly as the
`for pref in table.addprefixes: s.add(pref)` loops do. `^` on Python sets is
the symmetric difference. -/

/-- The set built by `s = set(); for pref in lst: s.add(pref)` — membership is
object identity, so only the tags matter. -/
def idSet (lst : List (Nat × SBHash)) : Finset Nat :=
  lst.foldl (fun s r => insert r.1 s) ∅

/-- Python `a ^ b` on sets: the symmetric difference. -/
def pySymmDiff (a b : Finset Nat) : Finset Nat := (a \ b) ∪ (b \ a)

/-- `len(old_addprefixes ^ new_addprefixes)`: the printed add-mismatch count. -/
def add_mismatch_count (old_table new_table : SBDataObj) : Nat :=
  (pySymmDiff (idSet old_table.addprefixes) (idSet new_table.addprefixes)).card

/-- `len(old_subprefixes ^ new_subprefixes)`: the printed sub-mismatch count. -/
def sub_mismatch_count (old_table new_table : SBDataObj) : Nat :=
  (pySymmDiff (idSet old_table.subprefixes) (idSet new_table.subprefixes)).card

/-- The `Correct: %f%%` computation
`(total_prefixes - failed_prefixes)*100/total_prefixes` (Python 2 integer
floor division); raises `ZeroDivisionError` when `total_prefixes` is zero. -/
def correct_percent (total failed : Nat) : Except DErr Int :=
  if total = 0 then .error .zeroDivision
  else .ok (Int.fdiv (((total : Int) - (failed : Int)) * 100) (total : Int))

/-- `compare_table(old_table, new_table)`: returns
`failed_prefixes != 0` after computing both mismatch counts,
`total_prefixes = len(old_addprefixes) + len(old_subprefixes)` (set sizes of
the old side only), and the correctness percentage. -/
def compare_table (old_table new_table : SBDataObj) : Except DErr Bool := do
  let total := (idSet old_table.addprefixes).card + (idSet old_table.subprefixes).card
  let failed := add_mismatch_count old_table new_table +
      sub_mismatch_count old_table new_table
  let _pct ← correct_percent total failed
  .ok (failed != 0)

/-- Python `dict[key]` lookup over the association-list model of the dict. -/
def lookup_list (lists : List (String × SBDataObj)) (key : String) :
    Option SBDataObj :=
  match lists with
  | [] => none
  | (n, d) :: rest => if n = key then some d else lookup_list rest key

/-- The `for table in old_lists` loop of `compare_all_the_things`, carrying the
accumulated `failure` flag. `new_lists[table]` raises `KeyError` (modelled as
`.error (.keyError table)`) when the name is absent. -/
def compare_all_loop (new_lists : List (String × SBDataObj))
    (old_lists : List (String × SBDataObj)) (failure : Bool) : Except DErr Bool :=
  match old_lists with
  | [] => .ok failure
  | (table, old_data) :: rest =>
      match lookup_list new_lists table with
      | none => .error (.keyError table)
      | some new_data => do
          let r ← compare_table old_data new_data
          compare_all_loop new_lists rest (failure || r)

/-- `compare_all_the_things(new_lists, old_lists)`. -/
def compare_all_the_things (new_lists old_lists : List (String × SBDataObj)) :
    Except DErr Bool :=
  compare_all_loop new_lists old_lists false

/-! ### Spec-side definitions

These two definitions follow the specification's words, not the source; they
exist to be compared against the source-derived definitions above. -/

/-- The record key the spec says the comparison uses: `(prefix, add_epoch)`
for add-prefixes. Folded into a set from the record values, ignoring object
identity. -/
def valueKeySet (lst : List (Nat × SBHash)) : Finset (Option PfxVal × Option Nat) :=
  lst.foldl (fun s r => insert (r.2.pfx, r.2.addchunk) s) ∅

/-- Modelled from the spec: "build an unordered set of `add_prefixes` keyed by
`(prefix, add_epoch)` from each side; take the symmetric difference; its size
is `add_mismatches`". -/
def spec_add_mismatches (old_table new_table : SBDataObj) : Nat :=
  ((valueKeySet old_table.addprefixes \ valueKeySet new_table.addprefixes) ∪
   (valueKeySet new_table.addprefixes \ valueKeySet old_table.addprefixes)).card

/-- Running sums: `sums p [d1, d2, ...] = [p+d1, p+d1+d2, ...]`. -/
def sums (p : Nat) : List Nat → List Nat
  | [] => []
  | d :: ds => (p + d) :: sums (p + d) ds

/-- Python slice `l[a:b]` for non-negative bounds (clamping, never failing). -/
def pySlice (l : List Nat) (a b : Nat) : List Nat := (l.take b).drop a

/-- Modelled from the spec: the block the reconstruction emits for index `i` —
"emit `indexPrefixes[i]`; let `start = indexStarts[i]`, `end = indexStarts[i+1]`
if `i` is not the last index else `end = deltaCount`; ... for each delta in
`deltas[start:end]` in order, running value += delta, emit running value". -/
def specBlock (index_prefixes index_starts index_deltas : List Nat) (i : Nat) :
    List Nat :=
  index_prefixes.getD i 0 ::
    sums (index_prefixes.getD i 0)
      (pySlice index_deltas (index_starts.getD i 0)
        (if i = index_prefixes.length - 1 then index_deltas.length
         else index_starts.getD (i + 1) 0))

/-- Modelled from the spec: the whole reconstructed sequence, block by block
for each index `i` in `[0, indexCount)`. -/
def spec_reconstruct (index_prefixes index_starts index_deltas : List Nat) :
    List Nat :=
  (List.range index_prefixes.length).flatMap
    (specBlock index_prefixes index_starts index_deltas)

/-! ### Byte-level encodings used to state the decoder theorems -/

/-- The four little-endian bytes of a `uint32` value. -/
def toLE4 (n : Nat) : List Nat :=
  [n % 256, n / 256 % 256, n / 65536 % 256, n / 16777216 % 256]

/-- The two little-endian bytes of a `uint16` value. -/
def toLE2 (n : Nat) : List Nat := [n % 256, n / 256 % 256]

/-- A sequence of `uint32` values, each as four little-endian bytes. -/
def encU32s : List Nat → List Nat
  | [] => []
  | x :: xs => toLE4 x ++ encU32s xs

/-- A sequence of `uint16` values, each as two little-endian bytes. -/
def encU16s : List Nat → List Nat
  | [] => []
  | x :: xs => toLE2 x ++ encU16s xs

/-! ### Step lemmas for the stream primitives -/

theorem ok_bind {α β : Type} (a : α) (f : α → Except DErr β) :
    (Except.ok a >>= f) = f a := rfl

theorem error_bind {α β : Type} (e : DErr) (f : α → Except DErr β) :
    ((Except.error e : Except DErr α) >>= f) = Except.error e := rfl

theorem readuint32_toLE4 (n : Nat) (h : n < 4294967296) (rest : List Nat) :
    readuint32 (toLE4 n ++ rest) = .ok (n, rest) := by
  simp only [toLE4, List.cons_append, List.nil_append, readuint32, Except.ok.injEq,
    Prod.mk.injEq, and_true]
  omega

theorem readuint16_toLE2 (n : Nat) (h : n < 65536) (rest : List Nat) :
    readuint16 (toLE2 n ++ rest) = .ok (n, rest) := by
  simp only [toLE2, List.cons_append, List.nil_append, readuint16, Except.ok.injEq,
    Prod.mk.injEq, and_true]
  omega

theorem read_unzip_append (dec : List Nat → Option (List Nat)) (z out rest : List Nat)
    (h : dec z = some out) :
    read_unzip dec z.length (z ++ rest) = .ok (out, rest) := by
  simp [read_unzip, List.take_left, List.drop_left, h]

theorem read_raw_append (z rest : List Nat) :
    read_raw z.length (z ++ rest) = .ok (z, rest) := by
  simp [read_raw, List.take_left, List.drop_left, List.length_append,
    Nat.le_add_right]

/-- Workhorse characterization of `read_bytesliced` on a stream laid out as
three length-prefixed compressed blocks followed by the raw LSB slice. -/
theorem read_bytesliced_append (dec : List Nat → Option (List Nat))
    (z1 z2 z3 s1 s2 s3 s4 rest : List Nat)
    (h1 : dec z1 = some s1) (h2 : dec z2 = some s2) (h3 : dec z3 = some s3)
    (e1 : z1.length < 4294967296) (e2 : z2.length < 4294967296)
    (e3 : z3.length < 4294967296) :
    read_bytesliced dec s4.length
      (toLE4 z1.length ++ z1 ++ toLE4 z2.length ++ z2 ++ toLE4 z3.length ++ z3 ++
        s4 ++ rest)
    = if s1.length ≠ s2.length ∨ s2.length ≠ s3.length ∨ s3.length ≠ s4.length then
        .error (.sliceMismatch s1.length s2.length s3.length s4.length)
      else
        .ok ((List.range s4.length).map (fun i =>
          ((s1.getD i 0) <<< 24) ||| ((s2.getD i 0) <<< 16) |||
          ((s3.getD i 0) <<< 8) ||| s4.getD i 0), rest) := by
  rw [read_bytesliced]
  simp only [List.append_assoc]
  rw [readuint32_toLE4 z1.length e1, ok_bind]
  rw [read_unzip_append dec z1 s1 _ h1, ok_bind]
  rw [readuint32_toLE4 z2.length e2, ok_bind]
  rw [read_unzip_append dec z2 s2 _ h2, ok_bind]
  rw [readuint32_toLE4 z3.length e3, ok_bind]
  rw [read_unzip_append dec z3 s3 _ h3, ok_bind]
  rw [read_raw_append s4 rest, ok_bind]

theorem byte_shift_lor_lt (a b c d : Nat) (ha : a < 256) (hb : b < 256)
    (hc : c < 256) (hd : d < 256) :
    (a <<< 24 ||| b <<< 16 ||| c <<< 8 ||| d) < 4294967296 := by
  have h32 : (4294967296 : Nat) = 2 ^ 32 := by norm_num
  rw [h32]
  have l1 : a <<< 24 < 2 ^ 32 := by
    rw [Nat.shiftLeft_eq]
    calc a * 2 ^ 24 ≤ 255 * 2 ^ 24 := Nat.mul_le_mul_right _ (by omega)
    _ < 2 ^ 32 := by norm_num
  have l2 : b <<< 16 < 2 ^ 32 := by
    rw [Nat.shiftLeft_eq]
    calc b * 2 ^ 16 ≤ 255 * 2 ^ 16 := Nat.mul_le_mul_right _ (by omega)
    _ < 2 ^ 32 := by norm_num
  have l3 : c <<< 8 < 2 ^ 32 := by
    rw [Nat.shiftLeft_eq]
    calc c * 2 ^ 8 ≤ 255 * 2 ^ 8 := Nat.mul_le_mul_right _ (by omega)
    _ < 2 ^ 32 := by norm_num
  have l4 : d < 2 ^ 32 := by omega
  exact Nat.or_lt_two_pow (Nat.or_lt_two_pow (Nat.or_lt_two_pow l1 l2) l3) l4

/-- Claim C4: a successful sliced-array decode of `count` elements returns
exactly `count` unsigned 32-bit integers, with
`value[i] = (msb[i]<<24) | (b2[i]<<16) | (b3[i]<<8) | lsb[i]`, where the three
compressed blocks decompress (in stream order) to the MSB, second and third
slices and the final raw block of `count` bytes is the LSB slice. -/
theorem c4_read_bytesliced_contract (dec : List Nat → Option (List Nat))
    (count : Nat) (z1 z2 z3 s1 s2 s3 s4 rest : List Nat)
    (h1 : dec z1 = some s1) (h2 : dec z2 = some s2) (h3 : dec z3 = some s3)
    (e1 : z1.length < 4294967296) (e2 : z2.length < 4294967296)
    (e3 : z3.length < 4294967296)
    (hm1 : s1.length = count) (hm2 : s2.length = count) (hm3 : s3.length = count)
    (hm4 : s4.length = count)
    (hb1 : ∀ x ∈ s1, x < 256) (hb2 : ∀ x ∈ s2, x < 256)
    (hb3 : ∀ x ∈ s3, x < 256) (hb4 : ∀ x ∈ s4, x < 256) :
    ∃ vs, read_bytesliced dec count
        (toLE4 z1.length ++ z1 ++ toLE4 z2.length ++ z2 ++ toLE4 z3.length ++ z3 ++
          s4 ++ rest) = .ok (vs, rest) ∧
      vs.length = count ∧
      (∀ i, i < count → vs.getD i 0 =
        ((s1.getD i 0) <<< 24) ||| ((s2.getD i 0) <<< 16) |||
        ((s3.getD i 0) <<< 8) ||| s4.getD i 0) ∧
      (∀ v ∈ vs, v < 4294967296) := by
  subst hm4
  refine ⟨(List.range s4.length).map (fun i =>
      ((s1.getD i 0) <<< 24) ||| ((s2.getD i 0) <<< 16) |||
      ((s3.getD i 0) <<< 8) ||| s4.getD i 0), ?_, ?_, ?_, ?_⟩
  · rw [read_bytesliced_append dec z1 z2 z3 s1 s2 s3 s4 rest h1 h2 h3 e1 e2 e3,
      if_neg (by simp [hm1, hm2, hm3])]
  · simp
  · intro i hi
    rw [List.getD_eq_getElem _ _ (by simpa using hi)]
    simp [List.getElem_map, List.getElem_range]
  · intro v hv
    simp only [List.mem_map, List.mem_range] at hv
    obtain ⟨i, hi, rfl⟩ := hv
    apply byte_shift_lor_lt
    · exact hb1 _ (by rw [List.getD_eq_getElem _ _ (by omega)]; exact List.getElem_mem _)
    · exact hb2 _ (by rw [List.getD_eq_getElem _ _ (by omega)]; exact List.getElem_mem _)
    · exact hb3 _ (by rw [List.getD_eq_getElem _ _ (by omega)]; exact List.getElem_mem _)
    · exact hb4 _ (by rw [List.getD_eq_getElem _ _ (by omega)]; exact List.getElem_mem _)

/-- Witness for C4 at a concrete input: one element, slices `[7],[7],[7]`
(compressed blocks decompressing to themselves under the identity
decompressor) and raw LSB block `[9]`. -/
theorem c4_witness : ∃ vs, read_bytesliced (fun b => some b) 1
      [1, 0, 0, 0, 7, 1, 0, 0, 0, 7, 1, 0, 0, 0, 7, 9] = .ok (vs, []) ∧
    vs.length = 1 ∧
    (∀ i, i < 1 → vs.getD i 0 =
      (([7].getD i 0) <<< 24) ||| (([7].getD i 0) <<< 16) |||
      (([7].getD i 0) <<< 8) ||| [9].getD i 0) ∧
    (∀ v ∈ vs, v < 4294967296) := by
  exact c4_read_bytesliced_contract (fun b => some b) 1 [7] [7] [7] [7] [7] [7] [9] []
    rfl rfl rfl (by decide) (by decide) (by decide) rfl rfl rfl rfl
    (by decide) (by decide) (by decide) (by decide)

/-- Claim C5: with the raw LSB block supplying exactly `count` bytes, the
sliced-array decode succeeds when all four decoded slice lengths equal
`count`, and fails with the slice-length-mismatch error reporting all four
observed lengths when any slice's length differs from the others. -/
theorem c5_slice_length_check (dec : List Nat → Option (List Nat))
    (count : Nat) (z1 z2 z3 s1 s2 s3 s4 rest : List Nat)
    (h1 : dec z1 = some s1) (h2 : dec z2 = some s2) (h3 : dec z3 = some s3)
    (e1 : z1.length < 4294967296) (e2 : z2.length < 4294967296)
    (e3 : z3.length < 4294967296)
    (hm4 : s4.length = count) :
    ((s1.length = count ∧ s2.length = count ∧ s3.length = count →
      ∃ vs, read_bytesliced dec count
        (toLE4 z1.length ++ z1 ++ toLE4 z2.length ++ z2 ++ toLE4 z3.length ++ z3 ++
          s4 ++ rest) = .ok (vs, rest)) ∧
     (¬(s1.length = s2.length ∧ s2.length = s3.length ∧ s3.length = count) →
      read_bytesliced dec count
        (toLE4 z1.length ++ z1 ++ toLE4 z2.length ++ z2 ++ toLE4 z3.length ++ z3 ++
          s4 ++ rest) = .error (.sliceMismatch s1.length s2.length s3.length count))) := by
  subst hm4
  constructor
  · rintro ⟨a, b, c⟩
    refine ⟨(List.range s4.length).map (fun i =>
      ((s1.getD i 0) <<< 24) ||| ((s2.getD i 0) <<< 16) |||
      ((s3.getD i 0) <<< 8) ||| s4.getD i 0), ?_⟩
    rw [read_bytesliced_append dec z1 z2 z3 s1 s2 s3 s4 rest h1 h2 h3 e1 e2 e3,
      if_neg (by simp [a, b, c])]
  · intro hne
    rw [read_bytesliced_append dec z1 z2 z3 s1 s2 s3 s4 rest h1 h2 h3 e1 e2 e3,
      if_pos (by tauto)]

/-- Witness for C5: under the identity decompressor, a first slice of length 2
against the other slices of length 1 fails reporting lengths (2,1,1,1), while
four slices of length 1 decode successfully. -/
theorem c5_witness :
    read_bytesliced (fun b => some b) 1
      [2, 0, 0, 0, 7, 8, 1, 0, 0, 0, 7, 1, 0, 0, 0, 7, 9] =
      .error (.sliceMismatch 2 1 1 1) ∧
    (∃ vs, read_bytesliced (fun b => some b) 1
      [1, 0, 0, 0, 7, 1, 0, 0, 0, 7, 1, 0, 0, 0, 7, 9] = .ok (vs, [])) := by
  constructor
  · exact (c5_slice_length_check (fun b => some b) 1 [7, 8] [7] [7] [7, 8] [7] [7] [9] []
      rfl rfl rfl (by decide) (by decide) (by decide) rfl).2 (by decide)
  · exact (c5_slice_length_check (fun b => some b) 1 [7] [7] [7] [7] [7] [7] [9] []
      rfl rfl rfl (by decide) (by decide) (by decide) rfl).1 (by decide)

/-! ### Prefix-set reconstruction lemmas -/

theorem pySlice_stop (l : List Nat) (a b : Nat) (h : b ≤ a) : pySlice l a b = [] := by
  apply List.drop_eq_nil_of_le
  calc (l.take b).length ≤ b := by simp [List.length_take]
  _ ≤ a := h

theorem pySlice_cons (l : List Nat) (a b : Nat) (ha : a < b) (hb : b ≤ l.length) :
    pySlice l a b = l.getD a 0 :: pySlice l (a + 1) b := by
  unfold pySlice
  rw [List.drop_eq_getElem_cons (by simp [List.length_take]; omega)]
  rw [List.getElem_take]
  rw [List.getD_eq_getElem l 0 (by omega)]

theorem run_deltas_from_eq (index_deltas : List Nat) :
    ∀ (n j e p : Nat), e ≤ index_deltas.length → e - j = n →
    run_deltas_from index_deltas p j n = some (sums p (pySlice index_deltas j e)) := by
  intro n
  induction n with
  | zero =>
    intro j e p he hn
    rw [pySlice_stop _ _ _ (by omega)]
    rfl
  | succ n ih =>
    intro j e p he hn
    have hj : j < e := by omega
    have hget : index_deltas[j]? = some (index_deltas.getD j 0) := by
      rw [List.getElem?_eq_getElem (by omega), List.getD_eq_getElem _ _ (by omega)]
    rw [run_deltas_from, hget]
    show (run_deltas_from index_deltas (p + index_deltas.getD j 0) (j + 1) n).map
      (fun t => (p + index_deltas.getD j 0) :: t) = _
    rw [ih (j + 1) e (p + index_deltas.getD j 0) he (by omega)]
    rw [pySlice_cons _ _ _ hj he]
    rfl

theorem run_deltas_eq (index_deltas : List Nat) (p j e : Nat)
    (he : e ≤ index_deltas.length) :
    run_deltas index_deltas p j e = some (sums p (pySlice index_deltas j e)) :=
  run_deltas_from_eq index_deltas (e - j) j e p he rfl

theorem pset_loop_from_eq (index_prefixes index_starts index_deltas : List Nat)
    (hlen : index_starts.length = index_prefixes.length)
    (hb : ∀ x ∈ index_starts, x ≤ index_deltas.length) :
    ∀ (n i : Nat), index_prefixes.length - i = n →
    pset_loop_from index_prefixes index_starts index_deltas i n =
      some ((List.range' i n).flatMap
        (specBlock index_prefixes index_starts index_deltas)) := by
  intro n
  induction n with
  | zero => intro i h; rfl
  | succ n ih =>
    intro i h
    have hi : i < index_prefixes.length := by omega
    have hp : index_prefixes[i]? = some (index_prefixes.getD i 0) := by
      rw [List.getElem?_eq_getElem hi, List.getD_eq_getElem _ _ hi]
    have hst : index_starts[i]? = some (index_starts.getD i 0) := by
      rw [List.getElem?_eq_getElem (by omega), List.getD_eq_getElem _ _ (by omega)]
    rw [pset_loop_from]
    simp only [hp, hst, Option.bind_eq_bind, Option.some_bind]
    by_cases hl : i = index_prefixes.length - 1
    · have hn0 : n = 0 := by omega
      subst hn0
      rw [if_neg (by omega)]
      rw [run_deltas_eq _ _ _ _ (le_refl _)]
      simp only [Option.bind_eq_bind, Option.some_bind, ih (i + 1) (by omega)]
      simp [specBlock, if_pos hl, List.range'_succ]
    · have hi1 : i + 1 < index_starts.length := by omega
      have hmem : index_starts.getD (i + 1) 0 ∈ index_starts := by
        rw [List.getD_eq_getElem _ _ hi1]
        exact List.getElem_mem _
      have hst1 : index_starts[i + 1]? = some (index_starts.getD (i + 1) 0) := by
        rw [List.getElem?_eq_getElem hi1, List.getD_eq_getElem _ _ hi1]
      rw [if_pos hl]
      simp only [hst1, Option.bind_eq_bind, Option.some_bind]
      rw [run_deltas_eq _ _ _ _ (hb _ hmem)]
      simp only [Option.bind_eq_bind, Option.some_bind, ih (i + 1) (by omega)]
      rw [List.range'_succ]
      simp [specBlock, if_neg hl, List.cons_append]

/-- Claim C6 (amended): for equal-length `indexPrefixes`/`indexStarts` whose
start entries all lie within the deltas array, the reconstruction emits, for
each index `i` in order, `indexPrefixes[i]` followed by the running sums over
`deltas[indexStarts[i] : indexStarts[i+1]]` (`deltas[indexStarts[i] :
deltaCount]` for the last index). The in-range requirement on `indexStarts` is
the amendment: the code indexes `index_deltas[j]` one element at a time and
raises `IndexError` where the claim's slice notation would clamp. -/
theorem c6_pset_reconstruction (index_prefixes index_starts index_deltas : List Nat)
    (hlen : index_starts.length = index_prefixes.length)
    (hb : ∀ x ∈ index_starts, x ≤ index_deltas.length) :
    pset_to_prefixes index_prefixes index_starts index_deltas =
      some (spec_reconstruct index_prefixes index_starts index_deltas) := by
  unfold pset_to_prefixes spec_reconstruct
  rw [pset_loop_from_eq index_prefixes index_starts index_deltas hlen hb
    index_prefixes.length 0 (by omega)]
  rw [List.range_eq_range']

/-- Witness for C6 at the claim's own example:
`indexPrefixes=[5], indexStarts=[0], deltas=[3,2]` reconstructs to `[5,8,10]`. -/
theorem c6_witness : pset_to_prefixes [5] [0] [3, 2] = some [5, 8, 10] := by
  have h := c6_pset_reconstruction [5] [0] [3, 2] (by decide) (by decide)
  exact h.trans (by decide)

/-- Counterexample to C6 as stated: with `indexStarts=[0,10]` pointing past
the single-element deltas array, the code raises `IndexError` (result `none`)
while the claim's slice-based reading yields the value `[5, 8, 6]`. -/
theorem c6_counterexample :
    pset_to_prefixes [5, 6] [0, 10] [3] = none ∧
    spec_reconstruct [5, 6] [0, 10] [3] = [5, 8, 6] := by
  exact ⟨rfl, by decide⟩

/-! ### `read_pset` on an encoded stream -/

theorem read_u32_list_enc : ∀ (l rest : List Nat), (∀ x ∈ l, x < 4294967296) →
    read_u32_list l.length (encU32s l ++ rest) = .ok (l, rest) := by
  intro l
  induction l with
  | nil => intro rest h; rfl
  | cons x xs ih =>
    intro rest h
    simp only [encU32s, List.length_cons, List.append_assoc]
    rw [read_u32_list]
    rw [readuint32_toLE4 x (h x (by simp)), ok_bind]
    show (read_u32_list xs.length (encU32s xs ++ rest) >>= fun p =>
      Except.ok (x :: p.1, p.2)) = Except.ok (x :: xs, rest)
    rw [ih rest (fun y hy => h y (by simp [hy])), ok_bind]

theorem read_u16_list_enc : ∀ (l rest : List Nat), (∀ x ∈ l, x < 65536) →
    read_u16_list l.length (encU16s l ++ rest) = .ok (l, rest) := by
  intro l
  induction l with
  | nil => intro rest h; rfl
  | cons x xs ih =>
    intro rest h
    simp only [encU16s, List.length_cons, List.append_assoc]
    rw [read_u16_list]
    rw [readuint16_toLE2 x (h x (by simp)), ok_bind]
    show (read_u16_list xs.length (encU16s xs ++ rest) >>= fun p =>
      Except.ok (x :: p.1, p.2)) = Except.ok (x :: xs, rest)
    rw [ih rest (fun y hy => h y (by simp [hy])), ok_bind]

/-- Claim C7: for every prefix-set decode, if the reconstructed sequence is
non-empty with first element exactly zero the decoder returns the empty
sequence, and otherwise it returns the reconstructed sequence unchanged. -/
theorem c7_read_pset_empty_rule (version : Nat)
    (index_prefixes index_starts index_deltas raw : List Nat)
    (hv : version < 4294967296)
    (hlen : index_starts.length = index_prefixes.length)
    (hips_len : index_prefixes.length < 4294967296)
    (hd_len : index_deltas.length < 4294967296)
    (hips : ∀ x ∈ index_prefixes, x < 4294967296)
    (hst : ∀ x ∈ index_starts, x < 4294967296)
    (hd : ∀ x ∈ index_deltas, x < 65536)
    (hraw : pset_to_prefixes index_prefixes index_starts index_deltas = some raw) :
    read_pset (toLE4 version ++ toLE4 index_prefixes.length ++
      toLE4 index_deltas.length ++ encU32s index_prefixes ++ encU32s index_starts ++
      encU16s index_deltas)
    = .ok (if raw ≠ [] ∧ raw.headD 0 = 0 then [] else raw) := by
  rw [read_pset]
  simp only [List.append_assoc]
  rw [readuint32_toLE4 version hv, ok_bind]
  rw [readuint32_toLE4 _ hips_len, ok_bind]
  rw [readuint32_toLE4 _ hd_len, ok_bind]
  rw [read_u32_list_enc _ _ hips, ok_bind]
  rw [← hlen]
  rw [read_u32_list_enc _ _ hst, ok_bind]
  rw [show encU16s index_deltas = encU16s index_deltas ++ [] from
    (List.append_nil _).symm]
  rw [read_u16_list_enc _ _ hd, ok_bind]
  rw [hraw]

/-- Witness for C7 at the claim's example: `indexPrefixes=[0], indexStarts=[0],
deltas=[]` reconstructs to `[0]`, and `read_pset` returns `[]`, not `[0]`. -/
theorem c7_witness :
    read_pset (toLE4 3 ++ toLE4 1 ++ toLE4 0 ++ encU32s [0] ++ encU32s [0] ++
      encU16s []) = .ok [] ∧
    pset_to_prefixes [0] [0] [] = some [0] := by
  constructor
  · have h := c7_read_pset_empty_rule 3 [0] [0] [] [0] (by decide) rfl (by decide)
      (by decide) (by decide) (by decide) (by decide) rfl
    exact h.trans rfl
  · rfl

/-! ### Assembler lemmas -/

theorem fill_addprefixes_ok (data : SBData) (given : List Nat)
    (h : given.length = data.addprefixes.length) :
    fill_addprefixes data given = .ok { data with
      addprefixes := List.zipWith (fun pref p => { pref with pfx := some (.word p) })
        data.addprefixes given } := by
  unfold fill_addprefixes
  rw [if_pos h]

theorem zipWith_getD (f : SBHash → Nat → SBHash) (l1 : List SBHash) (l2 : List Nat)
    (i : Nat) (h1 : i < l1.length) (h2 : i < l2.length) :
    (List.zipWith f l1 l2).getD i default = f (l1.getD i default) (l2.getD i 0) := by
  have hz : i < (List.zipWith f l1 l2).length := by
    rw [List.length_zipWith]
    exact lt_min h1 h2
  rw [List.getD_eq_getElem _ _ hz, List.getD_eq_getElem _ _ h1,
    List.getD_eq_getElem _ _ h2, List.getElem_zipWith]

/-- Claim C8: `fill_addprefixes` fails (with the assertion reporting both
counts) exactly when the given prefix sequence's length differs from the
number of placeholder add-prefix records, and on equal lengths assigns each
prefix value to the record at the same positional index. -/
theorem c8_fill_count_check (data : SBData) (given : List Nat) :
    (given.length ≠ data.addprefixes.length →
      fill_addprefixes data given =
        .error (.assertPrefixCount given.length data.addprefixes.length)) ∧
    (given.length = data.addprefixes.length →
      ∃ d, fill_addprefixes data given = .ok d ∧
        d.addprefixes.length = data.addprefixes.length ∧
        ∀ i, i < data.addprefixes.length →
          d.addprefixes.getD i default =
            { data.addprefixes.getD i default with
              pfx := some (.word (given.getD i 0)) }) := by
  constructor
  · intro hne
    unfold fill_addprefixes
    rw [if_neg hne]
  · intro heq
    refine ⟨_, fill_addprefixes_ok data given heq, ?_, ?_⟩
    · simp [List.length_zipWith, heq]
    · intro i hi
      exact zipWith_getD _ data.addprefixes given i hi (by omega)

/-- A store-side record set with three placeholder add-prefix records. -/
def dataC8 : SBData :=
  { name := none, addchunks := {10}, subchunks := ∅,
    addprefixes := [⟨some (.word 0), some 10, none⟩, ⟨some (.word 0), some 11, none⟩,
      ⟨some (.word 0), some 12, none⟩],
    subprefixes := [], addcompletes := [], subcompletes := [] }

/-- Witness for C8 at the claim's example: a store declaring 3 add-prefixes
paired with a 2-element prefix sequence fails, the error carrying both
counts (2 given, 3 expected); and an equal-length pair succeeds. -/
theorem c8_witness :
    fill_addprefixes dataC8 [1, 2] = .error (.assertPrefixCount 2 3) ∧
    (∃ d, fill_addprefixes dataC8 [1, 2, 3] = .ok d ∧
      d.addprefixes.length = dataC8.addprefixes.length ∧
      ∀ i, i < dataC8.addprefixes.length →
        d.addprefixes.getD i default =
          { dataC8.addprefixes.getD i default with
            pfx := some (.word ([1, 2, 3].getD i 0)) }) :=
  ⟨(c8_fill_count_check dataC8 [1, 2]).1 (by decide),
   (c8_fill_count_check dataC8 [1, 2, 3]).2 (by decide)⟩

/-- Claim C10: with matching lengths, filling in the add-prefixes changes only
the `prefix` field of the add-prefix records: their count, their
`addchunk`/`subchunk` values, the other three record sequences, both chunk
sets, and the name are unchanged. -/
theorem c10_fill_frame (data : SBData) (given : List Nat)
    (h : given.length = data.addprefixes.length) :
    ∃ d, fill_addprefixes data given = .ok d ∧
      d.name = data.name ∧
      d.addchunks = data.addchunks ∧
      d.subchunks = data.subchunks ∧
      d.subprefixes = data.subprefixes ∧
      d.addcompletes = data.addcompletes ∧
      d.subcompletes = data.subcompletes ∧
      d.addprefixes.length = data.addprefixes.length ∧
      (∀ i, i < data.addprefixes.length →
        (d.addprefixes.getD i default).addchunk =
          (data.addprefixes.getD i default).addchunk ∧
        (d.addprefixes.getD i default).subchunk =
          (data.addprefixes.getD i default).subchunk) := by
  refine ⟨_, fill_addprefixes_ok data given h, rfl, rfl, rfl, rfl, rfl, rfl, ?_, ?_⟩
  · simp [List.length_zipWith, h]
  · intro i hi
    rw [zipWith_getD _ data.addprefixes given i hi (by omega)]
    exact ⟨rfl, rfl⟩

/-- A record set with two placeholder add-prefix records and a populated
sub-prefix list, both chunk sets non-empty. -/
def dataC10 : SBData :=
  { name := some "goog-list", addchunks := {10}, subchunks := {4},
    addprefixes := [⟨some (.word 0), some 10, none⟩, ⟨some (.word 0), some 11, none⟩],
    subprefixes := [⟨some (.word 9), some 10, some 4⟩],
    addcompletes := [], subcompletes := [] }

/-- Witness for C10 at a concrete input. -/
theorem c10_witness :
    ([42, 43] : List Nat).length = dataC10.addprefixes.length ∧
    (∃ d, fill_addprefixes dataC10 [42, 43] = .ok d ∧
      d.name = dataC10.name ∧
      d.addchunks = dataC10.addchunks ∧
      d.subchunks = dataC10.subchunks ∧
      d.subprefixes = dataC10.subprefixes ∧
      d.addcompletes = dataC10.addcompletes ∧
      d.subcompletes = dataC10.subcompletes ∧
      d.addprefixes.length = dataC10.addprefixes.length ∧
      (∀ i, i < dataC10.addprefixes.length →
        (d.addprefixes.getD i default).addchunk =
          (dataC10.addprefixes.getD i default).addchunk ∧
        (d.addprefixes.getD i default).subchunk =
          (dataC10.addprefixes.getD i default).subchunk)) :=
  ⟨rfl, c10_fill_frame dataC10 [42, 43] rfl⟩

/-! ### Comparison engine theorems -/

/-- A freshly constructed add-prefix record object: identity tag, prefix
value, add chunk. -/
def mkObjAdd (tag pfxv addc : Nat) : Nat × SBHash :=
  (tag, ⟨some (.word pfxv), some addc, none⟩)

/-- An empty record set object (as a freshly parsed empty list yields). -/
def emptyObj : SBDataObj :=
  { name := none, addchunks := ∅, subchunks := ∅, addprefixes := [],
    subprefixes := [], addcompletes := [], subcompletes := [] }

/-- The legacy side of the reconciliation example: add-prefixes
{(1,10),(2,10)} as two fresh objects (tags 0 and 1). -/
def oldC1 : SBDataObj :=
  { name := some "test-list", addchunks := {10}, subchunks := ∅,
    addprefixes := [mkObjAdd 0 1 10, mkObjAdd 1 2 10],
    subprefixes := [], addcompletes := [], subcompletes := [] }

/-- The new side of the reconciliation example: add-prefixes {(1,10),(3,10)}
as two fresh objects (tags 2 and 3), distinct from the legacy side's. -/
def newC1 : SBDataObj :=
  { name := some "test-list", addchunks := {10}, subchunks := ∅,
    addprefixes := [mkObjAdd 2 1 10, mkObjAdd 3 3 10],
    subprefixes := [], addcompletes := [], subcompletes := [] }

/-- Claim C1, evaluated at the claim's own example. Because `SBHash` objects
hash and compare by identity, the code's symmetric difference counts every
record of both sides: `add_mismatches` comes out as 4, while the
`(prefix, add_epoch)`-keyed symmetric difference the spec describes has
size 2. The list is still reported inconsistent. -/
theorem c1_identity_eval :
    add_mismatch_count oldC1 newC1 = 4 ∧
    spec_add_mismatches oldC1 newC1 = 2 ∧
    compare_table oldC1 newC1 = .ok true := by
  refine ⟨?_, ?_, ?_⟩ <;> rfl

/-- Claim C2 (amended): when a list name from the legacy dataset is absent
from the new dataset, `compare_all_the_things` aborts with an uncaught
`KeyError` for that name the moment it reaches it; the remaining lists (and
any failure flag accumulated so far) are discarded, not aggregated. -/
theorem c2_missing_aborts :
    ∀ (new_lists : List (String × SBDataObj)) (table : String)
      (old_data : SBDataObj) (rest : List (String × SBDataObj)) (b : Bool),
      lookup_list new_lists table = none →
      compare_all_loop new_lists ((table, old_data) :: rest) b =
        .error (.keyError table) ∧
      compare_all_the_things new_lists ((table, old_data) :: rest) =
        .error (.keyError table) := by
  intro new_lists table old_data rest b h
  constructor
  · unfold compare_all_loop
    rw [h]
  · unfold compare_all_the_things compare_all_loop
    rw [h]

/-- Witness for C2's amended theorem at a concrete input. -/
theorem c2_missing_witness :
    lookup_list [("b", emptyObj)] "a" = none ∧
    compare_all_the_things [("b", emptyObj)] [("a", emptyObj), ("b", emptyObj)] =
      .error (.keyError "a") := by
  refine ⟨rfl, ?_⟩
  exact (c2_missing_aborts [("b", emptyObj)] "a" emptyObj [("b", emptyObj)] false
    rfl).2

/-- Counterexample to C2 as stated: the legacy dataset has lists "a" and "b",
the new dataset only "b"; the comparison neither reports a per-list failure
nor proceeds to compare "b" — it aborts with the `KeyError` for "a". -/
theorem c2_counterexample :
    compare_all_the_things [("b", emptyObj)] [("a", emptyObj), ("b", emptyObj)] =
      .error (.keyError "a") := by
  rfl

/-- Claim C3 (amended): when the old side has no add-prefixes and no
sub-prefixes, `total_prefixes = 0` and `compare_table` raises
`ZeroDivisionError` computing the correctness percentage instead of
completing with a 100% match. -/
theorem c3_zero_total_divzero (old_table new_table : SBDataObj)
    (ha : old_table.addprefixes = []) (hs : old_table.subprefixes = []) :
    compare_table old_table new_table = .error .zeroDivision := by
  simp [compare_table, ha, hs, idSet, correct_percent, error_bind]

/-- A new-side record set with one add-prefix record (tag 5). -/
def newC3 : SBDataObj := { emptyObj with addprefixes := [mkObjAdd 5 7 10] }

/-- Witness for C3's amended theorem at a concrete input: empty old side,
non-empty new side. -/
theorem c3_witness :
    emptyObj.addprefixes = [] ∧ emptyObj.subprefixes = [] ∧
    compare_table emptyObj newC3 = .error .zeroDivision :=
  ⟨rfl, rfl, c3_zero_total_divzero emptyObj newC3 rfl rfl⟩

/-- Counterexample to C3 as stated: comparing two empty lists does not
complete with a perfect match; it raises `ZeroDivisionError`. -/
theorem c3_counterexample :
    compare_table emptyObj emptyObj = .error .zeroDivision := by
  rfl

/-! ### `read_sbstore` on an all-zero-counts store -/

theorem read_u32_list_zero (s : List Nat) : read_u32_list 0 s = .ok ([], s) := rfl

theorem read_addcompletes_zero (s : List Nat) :
    read_addcompletes 0 s = .ok ([], s) := rfl

theorem read_subcompletes_zero (s : List Nat) :
    read_subcompletes 0 s = .ok ([], s) := rfl

/-- A sliced-array encoding of zero elements: three length-prefixed blocks
each decompressing to the empty slice, and an empty raw block. -/
def sliced0 (z : List Nat) : List Nat :=
  toLE4 z.length ++ z ++ toLE4 z.length ++ z ++ toLE4 z.length ++ z

theorem read_bytesliced_zero (dec : List Nat → Option (List Nat)) (z rest : List Nat)
    (hz : dec z = some []) (hzl : z.length < 4294967296) :
    read_bytesliced dec 0 (toLE4 z.length ++ (z ++ (toLE4 z.length ++ (z ++
      (toLE4 z.length ++ (z ++ rest)))))) = .ok ([], rest) := by
  have h := read_bytesliced_append dec z z z [] [] [] [] rest hz hz hz hzl hzl hzl
  simp only [List.append_assoc, List.nil_append, List.length_nil] at h
  simpa using h

/-- The empty `ListRecordSet` (result of decoding an empty store). -/
def emptySBData : SBData :=
  { name := none, addchunks := ∅, subchunks := ∅, addprefixes := [],
    subprefixes := [], addcompletes := [], subcompletes := [] }

/-- Claim C9 (amended): a store file whose header declares all six counts zero,
followed by four sliced-array encodings of zero elements (three length-prefixed
blocks each decompressing to the empty slice, empty raw block) and a 16-byte
checksum, with no further bytes, decodes without error into the empty record
set. The four sliced-array encodings are the amendment: the code reads the
three compressed-block headers of each array even when its count is zero, so
a file where the checksum follows the header immediately does not decode. -/
theorem c9_empty_store (dec : List Nat → Option (List Nat)) (magic version : Nat)
    (z md5 : List Nat)
    (hm : magic < 4294967296) (hv : version < 4294967296)
    (hz : dec z = some []) (hzl : z.length < 4294967296)
    (hmd5 : md5.length = 16) :
    read_sbstore dec (toLE4 magic ++ toLE4 version ++ toLE4 0 ++ toLE4 0 ++
      toLE4 0 ++ toLE4 0 ++ toLE4 0 ++ toLE4 0 ++ sliced0 z ++ sliced0 z ++
      sliced0 z ++ sliced0 z ++ md5) = .ok emptySBData := by
  rw [read_sbstore]
  simp only [sliced0, List.append_assoc]
  rw [readuint32_toLE4 magic hm, ok_bind]
  rw [readuint32_toLE4 version hv, ok_bind]
  rw [readuint32_toLE4 0 (by norm_num), ok_bind]
  rw [readuint32_toLE4 0 (by norm_num), ok_bind]
  rw [readuint32_toLE4 0 (by norm_num), ok_bind]
  rw [readuint32_toLE4 0 (by norm_num), ok_bind]
  rw [readuint32_toLE4 0 (by norm_num), ok_bind]
  rw [readuint32_toLE4 0 (by norm_num), ok_bind]
  rw [read_u32_list_zero, ok_bind]
  rw [read_u32_list_zero, ok_bind]
  rw [read_bytesliced_zero dec z _ hz hzl, ok_bind]
  rw [read_bytesliced_zero dec z _ hz hzl, ok_bind]
  rw [read_bytesliced_zero dec z _ hz hzl, ok_bind]
  rw [read_bytesliced_zero dec z _ hz hzl, ok_bind]
  rw [read_addcompletes_zero, ok_bind]
  rw [read_subcompletes_zero, ok_bind]
  have h1 : md5.take 16 = md5 := by
    rw [← hmd5]
    exact List.take_length md5
  have h2 : md5.drop 16 = [] := by
    rw [← hmd5]
    exact List.drop_length md5
  simp only [fread, h1, h2]
  rw [if_neg (by simp [hmd5])]
  rfl

/-- Witness for C9's amended theorem: a concrete all-zero-counts store whose
twelve block headers declare empty blocks, under a decompressor mapping the
empty block to the empty slice, decodes to the empty record set. -/
theorem c9_witness :
    read_sbstore (fun b => if b = ([] : List Nat) then some [] else none)
      (toLE4 0 ++ toLE4 0 ++ toLE4 0 ++ toLE4 0 ++ toLE4 0 ++ toLE4 0 ++ toLE4 0 ++
       toLE4 0 ++ sliced0 [] ++ sliced0 [] ++ sliced0 [] ++ sliced0 [] ++
       List.replicate 16 0) = .ok emptySBData := by
  exact c9_empty_store (fun b => if b = ([] : List Nat) then some [] else none)
    0 0 [] (List.replicate 16 0) (by norm_num) (by norm_num) rfl (by decide) (by simp)

/-- Counterexample to C9 as stated: the claimed file — the 8-field header with
all counts zero followed immediately by a 16-byte checksum and nothing else
(48 zero bytes here) — does not decode. `read_bytesliced` still reads a
compressed-block header and feeds the empty block to `zlib.decompress`, which
raises (first conjunct; `zlib.error` on empty input). Even a hypothetical
decompressor accepting the empty block fails: the block headers exhaust the
file and a later `struct` read runs out of bytes (second conjunct). -/
theorem c9_counterexample :
    read_sbstore (fun b => if b = ([] : List Nat) then none else some b)
      (List.replicate 48 0) = .error .zlibError ∧
    read_sbstore (fun _ => some ([] : List Nat))
      (List.replicate 48 0) = .error .structError := by
  exact ⟨rfl, rfl⟩
